import Mathlib

/-!
Shallow embedding of `util/src/memorydb.rs` (reference-counted memory-based
`HashDB` implementation, struct `MemoryDB`).

Modelling choices:
* Byte sequences (`DBValue`, `&[u8]`) are `List Nat`.
* 256-bit digests (`H256`) are `Nat`; the SHA3 hash function is an external
  collaborator of the core, so it is a parameter `hash : Bytes → Digest`.
* The internal `H256FastMap<(DBValue, i32)>` is a functional map
  `Digest → Option (Bytes × Int)`; every operation of the source touches
  keys independently, so each is translated pointwise.
* The `i32` reference count is an `Int` whose arithmetic is wrapped to the
  signed 32-bit range by `wrap32` exactly where the source performs
  `+= 1`, `-= 1` or `+= rc` (release-mode two's-complement semantics).
* `NULL_RLP` is the 1-byte sequence `[0x80]`; `SHA3_NULL_RLP = hash NULL_RLP`.
-/

abbrev Bytes : Type := List Nat
abbrev Digest : Type := Nat
abbrev StoreMap : Type := Digest → Option (Bytes × Int)

/-- The canonical empty-value byte sequence (`NULL_RLP = [0x80]`). -/
def NULL_RLP : Bytes := [128]

/-- `DBValue::new()`: an empty byte buffer, the placeholder stored on removal debt. -/
def emptyDBValue : Bytes := []

/-- Two's-complement wrap of an integer to the signed 32-bit range,
the release-mode semantics of `i32` addition/subtraction in the source. -/
def wrap32 (n : Int) : Int := (n + 2 ^ 31) % 2 ^ 32 - 2 ^ 31

/-- The public operations of the store, as used to describe the states
reachable from a fresh store.  A `consolidateOp` consumes an overlay store
that is itself built by a program of public operations from a fresh store. -/
inductive Op where
  | insertOp (v : Bytes)
  | emplaceOp (k : Digest) (v : Bytes)
  | removeOp (k : Digest)
  | removeAndPurgeOp (k : Digest)
  | purgeOp
  | clearOp
  | drainOp
  | consolidateOp (prog : List Op)

namespace MemoryDB

variable (hash : Bytes → Digest)

/-- The precomputed digest of `NULL_RLP`. -/
def SHA3_NULL_RLP : Digest := hash NULL_RLP

/-- `MemoryDB::new()`: empty table. -/
def new : StoreMap := fun _ => none

/-- Point update of the table at one key (the `HashMap` insert / in-place entry write). -/
def update (st : StoreMap) (key : Digest) (e : Bytes × Int) : StoreMap :=
  fun k => if k = key then some e else st k

/-- Point removal from the table (the `HashMap` remove / `Entry::remove`). -/
def erase (st : StoreMap) (key : Digest) : StoreMap :=
  fun k => if k = key then none else st k

/-- `MemoryDB::clear`: `self.data.clear()`. -/
def clear (_st : StoreMap) : StoreMap := fun _ => none

/-- `MemoryDB::purge`: delete every entry whose refcount is exactly 0. -/
def purge (st : StoreMap) : StoreMap := fun k =>
  match st k with
  | some (v, rc) => if rc = 0 then none else some (v, rc)
  | none => none

/-- `MemoryDB::drain`: return the internal map, leaving the table empty.
First component is the returned map, second the post-state. -/
def drain (st : StoreMap) : StoreMap × StoreMap := (st, fun _ => none)

/-- `MemoryDB::raw`: the entry exactly as stored, with the synthetic
`(NULL_RLP, 1)` for the empty digest. -/
def raw (st : StoreMap) (key : Digest) : Option (Bytes × Int) :=
  if key = SHA3_NULL_RLP hash then some (NULL_RLP, 1) else st key

/-- `MemoryDB::remove_and_purge`. First component is the returned
`Option<DBValue>`, second the post-state. -/
def remove_and_purge (st : StoreMap) (key : Digest) : Option Bytes × StoreMap :=
  if key = SHA3_NULL_RLP hash then (none, st)
  else
    match st key with
    | some (v, rc) =>
        if rc = 1 then (some v, erase st key)
        else (none, update st key (v, wrap32 (rc - 1)))
    | none => (none, update st key (emptyDBValue, -1))

/-- `MemoryDB::consolidate`: fold every entry drained out of `other` into
`self` (pointwise translation of the per-key loop; keys of a map are
distinct, so each key is processed independently).  Note the source
overwrites the stored value only when the existing refcount is
strictly negative (`if entry.get().1 < 0`). -/
def consolidate (st other : StoreMap) : StoreMap := fun k =>
  match other k with
  | none => st k
  | some (v, rc) =>
      match st k with
      | none => some (v, rc)
      | some (v0, rc0) => some (if rc0 < 0 then v else v0, wrap32 (rc0 + rc))

/-- `HashDB::get` for `MemoryDB`. -/
def get (st : StoreMap) (key : Digest) : Option Bytes :=
  if key = SHA3_NULL_RLP hash then some NULL_RLP
  else
    match st key with
    | some (d, rc) => if rc > 0 then some d else none
    | none => none

/-- `HashDB::keys` for `MemoryDB`: every entry with non-zero refcount,
as a map from digest to refcount. -/
def keys (st : StoreMap) : Digest → Option Int := fun k =>
  match st k with
  | some (_, rc) => if rc ≠ 0 then some rc else none
  | none => none

/-- `HashDB::contains` for `MemoryDB`. -/
def contains (st : StoreMap) (key : Digest) : Bool :=
  if key = SHA3_NULL_RLP hash then true
  else
    match st key with
    | some (_, x) => decide (x > 0)
    | none => false

/-- `HashDB::insert` for `MemoryDB`.  The pattern
`ref mut rc @ -0x80000000i32 ... 0` matches every `i32` refcount `≤ 0`.
First component is the returned key, second the post-state. -/
def insert (st : StoreMap) (value : Bytes) : Digest × StoreMap :=
  if value = NULL_RLP then (SHA3_NULL_RLP hash, st)
  else
    let key := hash value
    match st key with
    | some (v0, rc) =>
        if rc ≤ 0 then (key, update st key (value, wrap32 (rc + 1)))
        else (key, update st key (v0, wrap32 (rc + 1)))
    | none => (key, update st key (value, 1))

/-- `HashDB::emplace` for `MemoryDB`.  Only the value is compared against
`NULL_RLP`; the key is not checked. -/
def emplace (st : StoreMap) (key : Digest) (value : Bytes) : StoreMap :=
  if value = NULL_RLP then st
  else
    match st key with
    | some (v0, rc) =>
        if rc ≤ 0 then update st key (value, wrap32 (rc + 1))
        else update st key (v0, wrap32 (rc + 1))
    | none => update st key (value, 1)

/-- `HashDB::remove` for `MemoryDB`. -/
def remove (st : StoreMap) (key : Digest) : StoreMap :=
  if key = SHA3_NULL_RLP hash then st
  else
    match st key with
    | some (v, x) => update st key (v, wrap32 (x - 1))
    | none => update st key (emptyDBValue, -1)

/-- Run a program of public operations on a store state (results of `insert`,
`remove_and_purge` and `drain` are discarded; only the state evolves). -/
def runProg : List Op → StoreMap → StoreMap
  | [], st => st
  | Op.insertOp v :: rest, st => runProg rest (insert hash st v).2
  | Op.emplaceOp k v :: rest, st => runProg rest (emplace st k v)
  | Op.removeOp k :: rest, st => runProg rest (remove hash st k)
  | Op.removeAndPurgeOp k :: rest, st => runProg rest (remove_and_purge hash st k).2
  | Op.purgeOp :: rest, st => runProg rest (purge st)
  | Op.clearOp :: rest, st => runProg rest (clear st)
  | Op.drainOp :: rest, st => runProg rest (drain st).2
  | Op.consolidateOp prog :: rest, st =>
      runProg rest (consolidate st (runProg prog new))
termination_by prog _ => sizeOf prog
decreasing_by all_goals simp_arith

/-- A program honours the trust contract of `emplace`: no call passes the
empty digest together with a value other than `NULL_RLP` (recursively, in
overlay programs as well). -/
def goodProg : List Op → Bool
  | [] => true
  | Op.emplaceOp k v :: rest =>
      decide (k = SHA3_NULL_RLP hash → v = NULL_RLP) && goodProg rest
  | Op.consolidateOp prog :: rest => goodProg prog && goodProg rest
  | _ :: rest => goodProg rest
termination_by prog => sizeOf prog
decreasing_by all_goals simp_arith

end MemoryDB

/-- A concrete injective digest function on byte sequences, used to
instantiate the external `hash` collaborator in witnesses. -/
def encodeB : Bytes → Nat
  | [] => 0
  | a :: l => Nat.pair a (encodeB l) + 1

/-- All-refcounts-are-valid-`i32` predicate on a store state. -/
def validI32 (st : StoreMap) : Prop :=
  ∀ k v rc, st k = some (v, rc) → -(2 ^ 31) ≤ rc ∧ rc < 2 ^ 31

/-- A small concrete store used to instantiate theorems with hypotheses. -/
def wSt : StoreMap := fun k =>
  if k = 3 then some ([9], 2)
  else if k = 4 then some ([7], 0)
  else if k = 6 then some ([5], -1)
  else if k = 9 then some ([4], 1)
  else none

/-- A concrete store holding the minimal `i32` refcount. -/
def wMin : StoreMap := fun k => if k = 7 then some ([5], -(2 ^ 31)) else none

/-- Concrete `self` store for the `consolidate` analysis: refcount 0 at key 5. -/
def cselfW : StoreMap := fun k => if k = 5 then some ([1], 0) else none

/-- Concrete `other` store for the `consolidate` analysis: refcount 1 at key 5. -/
def cotherW : StoreMap := fun k => if k = 5 then some ([2], 1) else none

/-- A store with removal debt on `encodeB [1]`, reached from fresh by one `remove`. -/
def stDebt : StoreMap := MemoryDB.remove encodeB MemoryDB.new (encodeB [1])

/-- A concrete program of public operations exercising the store. -/
def progW : List Op :=
  [Op.insertOp [1], Op.removeOp 3, Op.consolidateOp [Op.insertOp [2]],
   Op.emplaceOp 4 [6], Op.purgeOp, Op.removeAndPurgeOp 4]

/-- The bytes of `"Hello world!"`, the value of the end-to-end scenario. -/
def helloBytes : Bytes := [72, 101, 108, 108, 111, 32, 119, 111, 114, 108, 100, 33]

/-- Scenario state after `insert "Hello world!"` on a fresh store. -/
def hm1 (hash : Bytes → Digest) : StoreMap :=
  (MemoryDB.insert hash MemoryDB.new helloBytes).2

/-- Scenario state after a second `insert`. -/
def hm2 (hash : Bytes → Digest) : StoreMap :=
  (MemoryDB.insert hash (hm1 hash) helloBytes).2

/-- Scenario state after one `remove`. -/
def hm3 (hash : Bytes → Digest) : StoreMap :=
  MemoryDB.remove hash (hm2 hash) (hash helloBytes)

/-- Scenario state after a second `remove`. -/
def hm4 (hash : Bytes → Digest) : StoreMap :=
  MemoryDB.remove hash (hm3 hash) (hash helloBytes)

/-- Scenario state after a third `remove`. -/
def hm5 (hash : Bytes → Digest) : StoreMap :=
  MemoryDB.remove hash (hm4 hash) (hash helloBytes)

/-- Scenario state after re-inserting once. -/
def hm6 (hash : Bytes → Digest) : StoreMap :=
  (MemoryDB.insert hash (hm5 hash) helloBytes).2

/-- Scenario state after re-inserting a second time. -/
def hm7 (hash : Bytes → Digest) : StoreMap :=
  (MemoryDB.insert hash (hm6 hash) helloBytes).2

theorem encodeB_injective : Function.Injective encodeB := by
  intro x
  induction x with
  | nil =>
      intro y h
      cases y with
      | nil => rfl
      | cons b m => simp [encodeB] at h
  | cons a l ih =>
      intro y h
      cases y with
      | nil => simp [encodeB] at h
      | cons b m =>
          simp only [encodeB, Nat.succ.injEq] at h
          obtain ⟨h1, h2⟩ := Nat.pair_eq_pair.mp h
          exact congrArg₂ List.cons h1 (ih h2)

theorem wrap32_bounds (n : Int) : -(2 ^ 31) ≤ wrap32 n ∧ wrap32 n < 2 ^ 31 := by
  unfold wrap32
  constructor
  · have := Int.emod_nonneg (n + 2 ^ 31) (b := (2 : Int) ^ 32) (by norm_num)
    omega
  · have := Int.emod_lt_of_pos (n + 2 ^ 31) (b := (2 : Int) ^ 32) (by norm_num)
    omega

theorem wrap32_eq_self {n : Int} (h1 : -(2 ^ 31) ≤ n) (h2 : n < 2 ^ 31) :
    wrap32 n = n := by
  unfold wrap32
  rw [Int.emod_eq_of_lt (by omega) (by omega)]
  omega

theorem update_same (st : StoreMap) (key : Digest) (e : Bytes × Int) :
    MemoryDB.update st key e key = some e := by
  simp [MemoryDB.update]

theorem update_other (st : StoreMap) (key : Digest) (e : Bytes × Int)
    (k : Digest) (h : k ≠ key) : MemoryDB.update st key e k = st k := by
  simp [MemoryDB.update, h]

theorem erase_same (st : StoreMap) (key : Digest) :
    MemoryDB.erase st key key = none := by
  simp [MemoryDB.erase]

theorem erase_other (st : StoreMap) (key k : Digest) (h : k ≠ key) :
    MemoryDB.erase st key k = st k := by
  simp [MemoryDB.erase, h]

/-- C7: `purge` deletes exactly the entries whose refcount is 0: afterwards no
key maps to a zero-refcount entry, zero-refcount entries are gone, every
non-zero entry is retained unchanged, no entry is created, and every surviving
entry was already present with the same value and refcount. -/
theorem purge_removes_exactly_zero_refcounts (st : StoreMap) (k : Digest) :
    (∀ v, MemoryDB.purge st k ≠ some (v, 0)) ∧
    (∀ v, st k = some (v, 0) → MemoryDB.purge st k = none) ∧
    (∀ v rc, st k = some (v, rc) → rc ≠ 0 → MemoryDB.purge st k = some (v, rc)) ∧
    (∀ v rc, MemoryDB.purge st k = some (v, rc) → st k = some (v, rc)) ∧
    (st k = none → MemoryDB.purge st k = none) := by
  unfold MemoryDB.purge
  rcases hst : st k with _ | ⟨v0, rc0⟩
  · simp
  · by_cases h0 : rc0 = 0 <;> simp [h0]

theorem purge_removes_exactly_zero_refcounts_witness :
    wSt 4 = some ([7], 0) ∧ MemoryDB.purge wSt 4 = none :=
  ⟨by decide, (purge_removes_exactly_zero_refcounts wSt 4).2.1 [7] (by decide)⟩

/-- C6 (amended): for `K` other than the empty digest, `remove K` decrements an
existing entry's refcount by 1 leaving the value untouched — except that at the
minimal `i32` refcount the subtraction wraps; on an absent key it records the
debt entry `(placeholder, -1)`; and `remove` of the empty digest leaves any
store unchanged. -/
theorem remove_spec (hash : Bytes → Digest) (st : StoreMap) (K : Digest)
    (hK : K ≠ MemoryDB.SHA3_NULL_RLP hash) :
    (∀ v rc, st K = some (v, rc) → -(2 ^ 31) < rc → rc < 2 ^ 31 →
        MemoryDB.remove hash st K K = some (v, rc - 1)) ∧
    (st K = none → MemoryDB.remove hash st K K = some (emptyDBValue, -1)) ∧
    (∀ st2 : StoreMap, MemoryDB.remove hash st2 (MemoryDB.SHA3_NULL_RLP hash) = st2) := by
  refine ⟨?_, ?_, ?_⟩
  · intro v rc hst h1 h2
    have hw : wrap32 (rc - 1) = rc - 1 := wrap32_eq_self (by omega) (by omega)
    simp [MemoryDB.remove, hK, hst, update_same, hw]
  · intro hst
    simp [MemoryDB.remove, hK, hst, update_same]
  · intro st2
    simp [MemoryDB.remove]

theorem remove_spec_witness :
    wSt 6 = some ([5], -1) ∧
    MemoryDB.remove encodeB wSt 6 6 = some ([5], (-1 : Int) - 1) :=
  ⟨by decide,
   (remove_spec encodeB wSt 6 (by decide)).1 [5] (-1) (by decide) (by decide) (by decide)⟩

/-- C6 counterexample: at the minimal `i32` refcount, `remove` does not
decrement by 1; the subtraction wraps to the maximal `i32` value. -/
theorem remove_wraps_at_int32_min :
    MemoryDB.remove encodeB wMin 7 7 = some ([5], 2 ^ 31 - 1) ∧
    ((2 : Int) ^ 31 - 1) ≠ -(2 ^ 31) - 1 := by decide

/-- C5 (amended): for `K` other than the empty digest, `remove_and_purge K`
deletes the entry and returns its stored value exactly when the entry's
refcount is 1; with any other refcount it decrements by 1 (wrapping at the
minimal `i32` value) and returns nothing; on an absent key it records
`(placeholder, -1)` and returns nothing; and it is a no-op returning nothing
on the empty digest. -/
theorem remove_and_purge_spec (hash : Bytes → Digest) (st : StoreMap) (K : Digest)
    (hK : K ≠ MemoryDB.SHA3_NULL_RLP hash) :
    (∀ v, st K = some (v, 1) →
        (MemoryDB.remove_and_purge hash st K).1 = some v ∧
        (MemoryDB.remove_and_purge hash st K).2 K = none) ∧
    (∀ v rc, st K = some (v, rc) → rc ≠ 1 → -(2 ^ 31) < rc → rc < 2 ^ 31 →
        (MemoryDB.remove_and_purge hash st K).1 = none ∧
        (MemoryDB.remove_and_purge hash st K).2 K = some (v, rc - 1)) ∧
    (st K = none →
        (MemoryDB.remove_and_purge hash st K).1 = none ∧
        (MemoryDB.remove_and_purge hash st K).2 K = some (emptyDBValue, -1)) ∧
    (∀ st2 : StoreMap,
        MemoryDB.remove_and_purge hash st2 (MemoryDB.SHA3_NULL_RLP hash) = (none, st2)) ∧
    (∀ w, (MemoryDB.remove_and_purge hash st K).1 = some w → st K = some (w, 1)) := by
  refine ⟨?_, ?_, ?_, ?_, ?_⟩
  · intro v hst
    simp [MemoryDB.remove_and_purge, hK, hst, erase_same]
  · intro v rc hst h1 h2 h3
    have hw : wrap32 (rc - 1) = rc - 1 := wrap32_eq_self (by omega) (by omega)
    simp [MemoryDB.remove_and_purge, hK, hst, h1, update_same, hw]
  · intro hst
    simp [MemoryDB.remove_and_purge, hK, hst, update_same]
  · intro st2
    simp [MemoryDB.remove_and_purge]
  · intro w
    rcases hst : st K with _ | ⟨v0, rc0⟩
    · simp [MemoryDB.remove_and_purge, hK, hst]
    · by_cases h1 : rc0 = 1
      · subst h1
        simp [MemoryDB.remove_and_purge, hK, hst]
      · simp [MemoryDB.remove_and_purge, hK, hst, h1]

theorem remove_and_purge_spec_witness :
    wSt 9 = some ([4], 1) ∧
    (MemoryDB.remove_and_purge encodeB wSt 9).1 = some [4] ∧
    (MemoryDB.remove_and_purge encodeB wSt 9).2 9 = none :=
  ⟨by decide, (remove_and_purge_spec encodeB wSt 9 (by decide)).1 [4] (by decide)⟩

/-- C5 counterexample: at the minimal `i32` refcount, `remove_and_purge` does
not decrement by 1; the subtraction wraps to the maximal `i32` value. -/
theorem remove_and_purge_wraps_at_int32_min :
    (MemoryDB.remove_and_purge encodeB wMin 7).2 7 = some ([5], 2 ^ 31 - 1) ∧
    ((2 : Int) ^ 31 - 1) ≠ -(2 ^ 31) - 1 := by decide

/-- C9: `clear` empties the table entirely — every key (including those with
positive or negative refcounts) is physically absent afterwards, `keys()` is
empty, and every key other than the empty digest reports absent from `raw`,
not contained, and absent from `get`. -/
theorem clear_spec (hash : Bytes → Digest) (st : StoreMap) (K : Digest)
    (hK : K ≠ MemoryDB.SHA3_NULL_RLP hash) :
    (∀ k, MemoryDB.clear st k = none) ∧
    (∀ k, MemoryDB.keys (MemoryDB.clear st) k = none) ∧
    MemoryDB.raw hash (MemoryDB.clear st) K = none ∧
    MemoryDB.contains hash (MemoryDB.clear st) K = false ∧
    MemoryDB.get hash (MemoryDB.clear st) K = none := by
  refine ⟨fun k => rfl, fun k => rfl, ?_, ?_, ?_⟩ <;>
    simp [MemoryDB.raw, MemoryDB.contains, MemoryDB.get, MemoryDB.clear, hK]

theorem clear_spec_witness :
    MemoryDB.clear wSt 3 = none ∧
    MemoryDB.keys (MemoryDB.clear wSt) 3 = none ∧
    MemoryDB.raw encodeB (MemoryDB.clear wSt) 3 = none ∧
    MemoryDB.contains encodeB (MemoryDB.clear wSt) 3 = false ∧
    MemoryDB.get encodeB (MemoryDB.clear wSt) 3 = none := by
  have h := clear_spec encodeB wSt 3 (by decide)
  exact ⟨h.1 3, h.2.1 3, h.2.2.1, h.2.2.2.1, h.2.2.2.2⟩

/-- C10: `remove`, `remove_and_purge` and `emplace` on key `K` leave every
other key's entry unchanged, and `insert v` leaves every key other than
`hash v` unchanged. -/
theorem frame_other_keys (hash : Bytes → Digest) (st : StoreMap) (K Kp : Digest)
    (v : Bytes) (hne : Kp ≠ K) :
    MemoryDB.remove hash st K Kp = st Kp ∧
    (MemoryDB.remove_and_purge hash st K).2 Kp = st Kp ∧
    MemoryDB.emplace st K v Kp = st Kp ∧
    (∀ w : Bytes, Kp ≠ hash w → (MemoryDB.insert hash st w).2 Kp = st Kp) := by
  refine ⟨?_, ?_, ?_, ?_⟩
  · unfold MemoryDB.remove
    split
    · rfl
    · rcases st K with _ | ⟨v0, rc0⟩ <;> simp [update_other _ _ _ _ hne]
  · unfold MemoryDB.remove_and_purge
    split
    · rfl
    · rcases st K with _ | ⟨v0, rc0⟩
      · simp [update_other _ _ _ _ hne]
      · by_cases h1 : rc0 = 1 <;>
          simp [h1, update_other _ _ _ _ hne, erase_other _ _ _ hne]
  · unfold MemoryDB.emplace
    split
    · rfl
    · rcases st K with _ | ⟨v0, rc0⟩
      · simp [update_other _ _ _ _ hne]
      · by_cases h1 : rc0 ≤ 0 <;> simp [h1, update_other _ _ _ _ hne]
  · intro w hw
    unfold MemoryDB.insert
    split
    · rfl
    · rcases hst : st (hash w) with _ | ⟨v0, rc0⟩
      · simp [hst, update_other _ _ _ _ hw]
      · by_cases h1 : rc0 ≤ 0 <;> simp [hst, h1, update_other _ _ _ _ hw]

/-- C1 counterexample: when `self`'s entry for the key has refcount exactly 0,
`consolidate` keeps `self`'s old stored value instead of taking the value from
`other` (the source overwrites only for strictly negative refcounts), while the
claim requires the value from `other`. -/
theorem consolidate_zero_refcount_keeps_old_value :
    MemoryDB.consolidate cselfW cotherW 5 = some ([1], 1) ∧ ([1] : Bytes) ≠ [2] := by
  decide

/-- C1 (amended): during `consolidate`, for a key present in both stores,
`self`'s stored value is overwritten with `other`'s value exactly when `self`'s
refcount is strictly negative — at refcount 0 the old stored value is kept —
and in both cases the resulting refcount is the sum of the two refcounts
(within the non-wrapping `i32` range). -/
theorem consolidate_entry_merge (self other : StoreMap) (K : Digest)
    (v v0 : Bytes) (rc rc0 : Int)
    (ho : other K = some (v, rc)) (hs : self K = some (v0, rc0))
    (h1 : -(2 ^ 31) ≤ rc0 + rc) (h2 : rc0 + rc < 2 ^ 31) :
    (rc0 < 0 → MemoryDB.consolidate self other K = some (v, rc0 + rc)) ∧
    (0 ≤ rc0 → MemoryDB.consolidate self other K = some (v0, rc0 + rc)) := by
  have hw : wrap32 (rc0 + rc) = rc0 + rc := wrap32_eq_self h1 h2
  constructor
  · intro hneg
    simp [MemoryDB.consolidate, ho, hs, hneg, hw]
  · intro hpos
    have hnneg : ¬rc0 < 0 := by omega
    simp [MemoryDB.consolidate, ho, hs, hnneg, hw]

theorem consolidate_entry_merge_witness :
    cselfW 5 = some ([1], 0) ∧ cotherW 5 = some ([2], 1) ∧
    MemoryDB.consolidate cselfW cotherW 5 = some ([1], (0 : Int) + 1) :=
  ⟨by decide, by decide,
   (consolidate_entry_merge cselfW cotherW 5 [2] [1] 1 0 (by decide) (by decide)
      (by decide) (by decide)).2 (by decide)⟩

/-- C2 counterexample: starting from a store with a removal debt of -1 on
`hash v` (reached from fresh by one `remove`), `insert v` raises the refcount
only to 0, so `contains (hash v)` is false immediately after the insert. -/
theorem insert_after_debt_not_contained :
    MemoryDB.contains encodeB (MemoryDB.insert encodeB stDebt [1]).2 (encodeB [1])
      = false := by
  decide

/-- C2 (amended): for every `v ≠ EMPTY_VALUE`, `insert v` returns `hash v`;
and `contains (hash v)` is true immediately afterwards provided the prior entry
for `hash v` was absent or had refcount in `[0, 2^31 - 2]` (in particular it is
false when the prior refcount was negative, e.g. removal debt). -/
theorem insert_returns_hash_and_contains (hash : Bytes → Digest) (st : StoreMap)
    (v : Bytes) (hv : v ≠ NULL_RLP)
    (hprior : st (hash v) = none ∨
      ∃ w rc, st (hash v) = some (w, rc) ∧ 0 ≤ rc ∧ rc < 2 ^ 31 - 1) :
    (MemoryDB.insert hash st v).1 = hash v ∧
    MemoryDB.contains hash (MemoryDB.insert hash st v).2 (hash v) = true := by
  constructor
  · unfold MemoryDB.insert
    rw [if_neg hv]
    rcases hst : st (hash v) with _ | ⟨v0, rc0⟩
    · simp [hst]
    · by_cases h1 : rc0 ≤ 0 <;> simp [hst, h1]
  · rcases hprior with hnone | ⟨w, rc, hsome, hrc0, hrc1⟩
    · by_cases hsn : hash v = MemoryDB.SHA3_NULL_RLP hash
      · simp [MemoryDB.contains, hsn]
      · simp [MemoryDB.insert, MemoryDB.contains, hv, hnone, hsn, update_same]
    · by_cases hsn : hash v = MemoryDB.SHA3_NULL_RLP hash
      · simp [MemoryDB.contains, hsn]
      · have hw1 : wrap32 (rc + 1) = rc + 1 := wrap32_eq_self (by omega) (by omega)
        by_cases h1 : rc ≤ 0
        · simp [MemoryDB.insert, MemoryDB.contains, hv, hsome, hsn, h1, update_same, hw1]
          omega
        · simp [MemoryDB.insert, MemoryDB.contains, hv, hsome, hsn, h1, update_same, hw1]
          omega

theorem insert_returns_hash_and_contains_witness :
    (MemoryDB.insert encodeB MemoryDB.new [1]).1 = encodeB [1] ∧
    MemoryDB.contains encodeB (MemoryDB.insert encodeB MemoryDB.new [1]).2
      (encodeB [1]) = true :=
  insert_returns_hash_and_contains encodeB MemoryDB.new [1] (by decide) (Or.inl rfl)

theorem validI32_update (st : StoreMap) (key : Digest) (w : Bytes) (rc : Int)
    (hst : validI32 st) (h : -(2 ^ 31) ≤ rc ∧ rc < 2 ^ 31) :
    validI32 (MemoryDB.update st key (w, rc)) := by
  intro k v2 rc2 hk
  by_cases he : k = key
  · simp [MemoryDB.update, he] at hk
    rcases hk with ⟨-, h2⟩
    exact h2 ▸ h
  · simp [MemoryDB.update, he] at hk
    exact hst k v2 rc2 hk

theorem validI32_erase (st : StoreMap) (key : Digest) (hst : validI32 st) :
    validI32 (MemoryDB.erase st key) := by
  intro k v2 rc2 hk
  by_cases he : k = key
  · simp [MemoryDB.erase, he] at hk
  · simp [MemoryDB.erase, he] at hk
    exact hst k v2 rc2 hk

/-- C4: every operation is a total function of the store state — each returns a
value on all inputs — and, starting from stores whose refcounts are valid
signed 32-bit integers, every operation (including the wrapped `i32` refcount
arithmetic of `insert`, `emplace`, `remove`, `remove_and_purge` and
`consolidate` at the extremes of the range) again produces only valid signed
32-bit refcounts. -/
theorem ops_total_and_refcounts_in_i32 (hash : Bytes → Digest)
    (st other : StoreMap) (K : Digest) (v : Bytes)
    (hst : validI32 st) (hother : validI32 other) :
    validI32 (MemoryDB.insert hash st v).2 ∧
    validI32 (MemoryDB.emplace st K v) ∧
    validI32 (MemoryDB.remove hash st K) ∧
    validI32 (MemoryDB.remove_and_purge hash st K).2 ∧
    validI32 (MemoryDB.consolidate st other) ∧
    validI32 (MemoryDB.purge st) ∧
    validI32 (MemoryDB.clear st) ∧
    validI32 (MemoryDB.drain st).2 ∧
    validI32 MemoryDB.new := by
  refine ⟨?_, ?_, ?_, ?_, ?_, ?_, ?_, ?_, ?_⟩
  · unfold MemoryDB.insert
    split
    · exact hst
    · rcases hst' : st (hash v) with _ | ⟨v0, rc0⟩ <;> simp [hst']
      · exact validI32_update _ _ _ _ hst (by norm_num)
      · by_cases h1 : rc0 ≤ 0 <;> simp [h1] <;>
          exact validI32_update _ _ _ _ hst (wrap32_bounds _)
  · unfold MemoryDB.emplace
    split
    · exact hst
    · rcases hst' : st K with _ | ⟨v0, rc0⟩ <;> simp [hst']
      · exact validI32_update _ _ _ _ hst (by norm_num)
      · by_cases h1 : rc0 ≤ 0 <;> simp [h1] <;>
          exact validI32_update _ _ _ _ hst (wrap32_bounds _)
  · unfold MemoryDB.remove
    split
    · exact hst
    · rcases hst' : st K with _ | ⟨v0, rc0⟩ <;> simp [hst']
      · exact validI32_update _ _ _ _ hst (by norm_num)
      · exact validI32_update _ _ _ _ hst (wrap32_bounds _)
  · unfold MemoryDB.remove_and_purge
    split
    · exact hst
    · rcases hst' : st K with _ | ⟨v0, rc0⟩ <;> simp [hst']
      · exact validI32_update _ _ _ _ hst (by norm_num)
      · by_cases h1 : rc0 = 1 <;> simp [h1]
        · exact validI32_erase _ _ hst
        · exact validI32_update _ _ _ _ hst (wrap32_bounds _)
  · intro k v2 rc2 hk
    unfold MemoryDB.consolidate at hk
    rcases ho : other k with _ | ⟨v1, rc1⟩ <;> rw [ho] at hk
    · exact hst k v2 rc2 hk
    · rcases hs : st k with _ | ⟨v0, rc0⟩ <;> rw [hs] at hk <;>
        simp at hk
      · rcases hk with ⟨-, h2⟩
        exact h2 ▸ hother k v1 rc1 ho
      · rcases hk with ⟨-, h2⟩
        exact h2 ▸ wrap32_bounds _
  · intro k v2 rc2 hk
    unfold MemoryDB.purge at hk
    rcases hs : st k with _ | ⟨v0, rc0⟩ <;> rw [hs] at hk
    · exact absurd hk (by simp)
    · by_cases h0 : rc0 = 0 <;> simp [h0] at hk
      rcases hk with ⟨-, h2⟩
      exact h2 ▸ hst k v0 rc0 hs
  · intro k v2 rc2 hk
    exact absurd hk (by simp [MemoryDB.clear])
  · intro k v2 rc2 hk
    exact absurd hk (by simp [MemoryDB.drain])
  · intro k v2 rc2 hk
    exact absurd hk (by simp [MemoryDB.new])

theorem ops_total_and_refcounts_in_i32_witness :
    validI32 (MemoryDB.insert encodeB MemoryDB.new [1]).2 ∧
    validI32 (MemoryDB.emplace MemoryDB.new 3 [1]) ∧
    validI32 (MemoryDB.remove encodeB MemoryDB.new 3) ∧
    validI32 (MemoryDB.remove_and_purge encodeB MemoryDB.new 3).2 ∧
    validI32 (MemoryDB.consolidate MemoryDB.new MemoryDB.new) ∧
    validI32 (MemoryDB.purge MemoryDB.new) ∧
    validI32 (MemoryDB.clear MemoryDB.new) ∧
    validI32 (MemoryDB.drain MemoryDB.new).2 ∧
    validI32 MemoryDB.new :=
  ops_total_and_refcounts_in_i32 encodeB MemoryDB.new MemoryDB.new 3 [1]
    (fun _ _ _ hk => by simp [MemoryDB.new] at hk)
    (fun _ _ _ hk => by simp [MemoryDB.new] at hk)

theorem frame_other_keys_witness :
    MemoryDB.remove encodeB wSt 6 3 = wSt 3 ∧
    (MemoryDB.remove_and_purge encodeB wSt 6).2 3 = wSt 3 ∧
    MemoryDB.emplace wSt 6 [8] 3 = wSt 3 ∧
    (MemoryDB.insert encodeB wSt [2]).2 3 = wSt 3 := by
  have h := frame_other_keys encodeB wSt 6 3 [8] (by decide)
  exact ⟨h.1, h.2.1, h.2.2.1, h.2.2.2 [2] (by decide)⟩

/-- C8: the end-to-end `"Hello world!"` scenario: after the first insert the
key is contained; after a second insert there is a single entry with
refcount 2, still contained; after two removes the refcount is 0 and the key
is not contained; after a third remove the refcount is -1, still not
contained; one insert brings the refcount to 0, still not contained; a second
insert brings it to 1, contained, and `get` returns `"Hello world!"`. -/
theorem hello_world_scenario (hash : Bytes → Digest)
    (hne : hash helloBytes ≠ MemoryDB.SHA3_NULL_RLP hash) :
    MemoryDB.contains hash (hm1 hash) (hash helloBytes) = true ∧
    hm2 hash (hash helloBytes) = some (helloBytes, 2) ∧
    (∀ k, k ≠ hash helloBytes → hm2 hash k = none) ∧
    MemoryDB.contains hash (hm2 hash) (hash helloBytes) = true ∧
    hm4 hash (hash helloBytes) = some (helloBytes, 0) ∧
    MemoryDB.contains hash (hm4 hash) (hash helloBytes) = false ∧
    hm5 hash (hash helloBytes) = some (helloBytes, -1) ∧
    MemoryDB.contains hash (hm5 hash) (hash helloBytes) = false ∧
    hm6 hash (hash helloBytes) = some (helloBytes, 0) ∧
    MemoryDB.contains hash (hm6 hash) (hash helloBytes) = false ∧
    hm7 hash (hash helloBytes) = some (helloBytes, 1) ∧
    MemoryDB.contains hash (hm7 hash) (hash helloBytes) = true ∧
    MemoryDB.get hash (hm7 hash) (hash helloBytes) = some helloBytes := by
  have hv : helloBytes ≠ NULL_RLP := by decide
  have E1 : hm1 hash = MemoryDB.update MemoryDB.new (hash helloBytes) (helloBytes, 1) := by
    simp [hm1, MemoryDB.insert, hv, MemoryDB.new]
  have e1 : hm1 hash (hash helloBytes) = some (helloBytes, 1) := by
    rw [E1]; exact update_same _ _ _
  have E2 : hm2 hash = MemoryDB.update (hm1 hash) (hash helloBytes) (helloBytes, 2) := by
    simp [hm2, MemoryDB.insert, hv, e1, show ¬((1 : Int) ≤ 0) by norm_num,
      show wrap32 2 = 2 by decide]
  have e2 : hm2 hash (hash helloBytes) = some (helloBytes, 2) := by
    rw [E2]; exact update_same _ _ _
  have e3 : hm3 hash (hash helloBytes) = some (helloBytes, 1) := by
    simp [hm3, MemoryDB.remove, hne, e2, update_same, show wrap32 1 = 1 by decide]
  have e4 : hm4 hash (hash helloBytes) = some (helloBytes, 0) := by
    simp [hm4, MemoryDB.remove, hne, e3, update_same, show wrap32 0 = 0 by decide]
  have e5 : hm5 hash (hash helloBytes) = some (helloBytes, -1) := by
    simp [hm5, MemoryDB.remove, hne, e4, update_same, show wrap32 (-1) = -1 by decide]
  have e6 : hm6 hash (hash helloBytes) = some (helloBytes, 0) := by
    simp [hm6, MemoryDB.insert, hv, e5, update_same,
      show ((-1 : Int)) ≤ 0 by norm_num, show wrap32 0 = 0 by decide]
  have e7 : hm7 hash (hash helloBytes) = some (helloBytes, 1) := by
    simp [hm7, MemoryDB.insert, hv, e6, update_same,
      show ((0 : Int)) ≤ 0 by norm_num, show wrap32 1 = 1 by decide]
  refine ⟨?_, e2, ?_, ?_, e4, ?_, e5, ?_, e6, ?_, e7, ?_, ?_⟩
  · simp [MemoryDB.contains, hne, e1]
  · intro k hk
    rw [E2, update_other _ _ _ _ hk, E1, update_other _ _ _ _ hk]
    rfl
  · simp [MemoryDB.contains, hne, e2]
  · simp [MemoryDB.contains, hne, e4]
  · simp [MemoryDB.contains, hne, e5]
  · simp [MemoryDB.contains, hne, e6]
  · simp [MemoryDB.contains, hne, e7]
  · simp [MemoryDB.get, hne, e7]

theorem hello_world_scenario_witness :
    MemoryDB.contains encodeB (hm1 encodeB) (encodeB helloBytes) = true ∧
    hm2 encodeB (encodeB helloBytes) = some (helloBytes, 2) ∧
    (∀ k, k ≠ encodeB helloBytes → hm2 encodeB k = none) ∧
    MemoryDB.contains encodeB (hm2 encodeB) (encodeB helloBytes) = true ∧
    hm4 encodeB (encodeB helloBytes) = some (helloBytes, 0) ∧
    MemoryDB.contains encodeB (hm4 encodeB) (encodeB helloBytes) = false ∧
    hm5 encodeB (encodeB helloBytes) = some (helloBytes, -1) ∧
    MemoryDB.contains encodeB (hm5 encodeB) (encodeB helloBytes) = false ∧
    hm6 encodeB (encodeB helloBytes) = some (helloBytes, 0) ∧
    MemoryDB.contains encodeB (hm6 encodeB) (encodeB helloBytes) = false ∧
    hm7 encodeB (encodeB helloBytes) = some (helloBytes, 1) ∧
    MemoryDB.contains encodeB (hm7 encodeB) (encodeB helloBytes) = true ∧
    MemoryDB.get encodeB (hm7 encodeB) (encodeB helloBytes) = some helloBytes :=
  hello_world_scenario encodeB (by decide)

theorem insert_keeps_empty_absent (hash : Bytes → Digest)
    (hinj : ∀ v : Bytes, v ≠ NULL_RLP → hash v ≠ MemoryDB.SHA3_NULL_RLP hash)
    (st : StoreMap) (v : Bytes)
    (hn : st (MemoryDB.SHA3_NULL_RLP hash) = none) :
    (MemoryDB.insert hash st v).2 (MemoryDB.SHA3_NULL_RLP hash) = none := by
  unfold MemoryDB.insert
  by_cases hv : v = NULL_RLP
  · simp [hv, hn]
  · have hk := hinj v hv
    rw [if_neg hv]
    rcases hst : st (hash v) with _ | ⟨v0, rc0⟩
    · simp [hst, update_other _ _ _ _ (Ne.symm hk), hn]
    · by_cases h1 : rc0 ≤ 0 <;>
        simp [hst, h1, update_other _ _ _ _ (Ne.symm hk), hn]

theorem emplace_keeps_empty_absent (st : StoreMap) (k : Digest) (v : Bytes)
    (hash : Bytes → Digest)
    (hgood : k = MemoryDB.SHA3_NULL_RLP hash → v = NULL_RLP)
    (hn : st (MemoryDB.SHA3_NULL_RLP hash) = none) :
    MemoryDB.emplace st k v (MemoryDB.SHA3_NULL_RLP hash) = none := by
  unfold MemoryDB.emplace
  by_cases hv : v = NULL_RLP
  · simp [hv, hn]
  · have hk : k ≠ MemoryDB.SHA3_NULL_RLP hash := fun he => hv (hgood he)
    rw [if_neg hv]
    rcases hst : st k with _ | ⟨v0, rc0⟩
    · simp [hst, update_other _ _ _ _ (Ne.symm hk), hn]
    · by_cases h1 : rc0 ≤ 0 <;>
        simp [hst, h1, update_other _ _ _ _ (Ne.symm hk), hn]

theorem remove_keeps_empty_absent (hash : Bytes → Digest) (st : StoreMap)
    (k : Digest) (hn : st (MemoryDB.SHA3_NULL_RLP hash) = none) :
    MemoryDB.remove hash st k (MemoryDB.SHA3_NULL_RLP hash) = none := by
  unfold MemoryDB.remove
  by_cases hk : k = MemoryDB.SHA3_NULL_RLP hash
  · simp [hk, hn]
  · rcases hst : st k with _ | ⟨v0, rc0⟩ <;>
      simp [hk, hst, update_other _ _ _ _ (Ne.symm hk), hn]

theorem remove_and_purge_keeps_empty_absent (hash : Bytes → Digest)
    (st : StoreMap) (k : Digest)
    (hn : st (MemoryDB.SHA3_NULL_RLP hash) = none) :
    (MemoryDB.remove_and_purge hash st k).2 (MemoryDB.SHA3_NULL_RLP hash) = none := by
  unfold MemoryDB.remove_and_purge
  by_cases hk : k = MemoryDB.SHA3_NULL_RLP hash
  · simp [hk, hn]
  · rcases hst : st k with _ | ⟨v0, rc0⟩
    · simp [hk, hst, update_other _ _ _ _ (Ne.symm hk), hn]
    · by_cases h1 : rc0 = 1 <;>
        simp [hk, hst, h1, update_other _ _ _ _ (Ne.symm hk),
          erase_other _ _ _ (Ne.symm hk), hn]

theorem purge_keeps_empty_absent (hash : Bytes → Digest) (st : StoreMap)
    (hn : st (MemoryDB.SHA3_NULL_RLP hash) = none) :
    MemoryDB.purge st (MemoryDB.SHA3_NULL_RLP hash) = none := by
  simp [MemoryDB.purge, hn]

theorem consolidate_keeps_empty_absent (hash : Bytes → Digest)
    (st other : StoreMap)
    (hn : st (MemoryDB.SHA3_NULL_RLP hash) = none)
    (ho : other (MemoryDB.SHA3_NULL_RLP hash) = none) :
    MemoryDB.consolidate st other (MemoryDB.SHA3_NULL_RLP hash) = none := by
  simp [MemoryDB.consolidate, hn, ho]

theorem runProg_keeps_empty_absent (hash : Bytes → Digest)
    (hinj : ∀ v : Bytes, v ≠ NULL_RLP → hash v ≠ MemoryDB.SHA3_NULL_RLP hash) :
    ∀ (prog : List Op) (st : StoreMap),
      MemoryDB.goodProg hash prog = true →
      st (MemoryDB.SHA3_NULL_RLP hash) = none →
      MemoryDB.runProg hash prog st (MemoryDB.SHA3_NULL_RLP hash) = none := by
  intro prog st
  induction prog, st using MemoryDB.runProg.induct hash with
  | case1 st =>
      intro _ hn
      simpa [MemoryDB.runProg] using hn
  | case2 v rest st ih =>
      intro hg hn
      simp only [MemoryDB.goodProg] at hg
      simp only [MemoryDB.runProg]
      exact ih hg (insert_keeps_empty_absent hash hinj st v hn)
  | case3 k v rest st ih =>
      intro hg hn
      simp only [MemoryDB.goodProg, Bool.and_eq_true, decide_eq_true_eq] at hg
      simp only [MemoryDB.runProg]
      exact ih hg.2 (emplace_keeps_empty_absent st k v hash hg.1 hn)
  | case4 k rest st ih =>
      intro hg hn
      simp only [MemoryDB.goodProg] at hg
      simp only [MemoryDB.runProg]
      exact ih hg (remove_keeps_empty_absent hash st k hn)
  | case5 k rest st ih =>
      intro hg hn
      simp only [MemoryDB.goodProg] at hg
      simp only [MemoryDB.runProg]
      exact ih hg (remove_and_purge_keeps_empty_absent hash st k hn)
  | case6 rest st ih =>
      intro hg hn
      simp only [MemoryDB.goodProg] at hg
      simp only [MemoryDB.runProg]
      exact ih hg (purge_keeps_empty_absent hash st hn)
  | case7 rest st ih =>
      intro hg hn
      simp only [MemoryDB.goodProg] at hg
      simp only [MemoryDB.runProg]
      exact ih hg rfl
  | case8 rest st ih =>
      intro hg hn
      simp only [MemoryDB.goodProg] at hg
      simp only [MemoryDB.runProg]
      exact ih hg rfl
  | case9 prog rest st ih1 ih2 =>
      intro hg hn
      simp only [MemoryDB.goodProg, Bool.and_eq_true] at hg
      simp only [MemoryDB.runProg]
      exact ih2 hg.2
        (consolidate_keeps_empty_absent hash st _ hn (ih1 hg.1 rfl))

/-- C3 (amended): in every store state reachable from a fresh store by a
sequence of public operations in which every `emplace` call (recursively, in
overlay programs consumed by `consolidate` as well) that targets
`EMPTY_DIGEST` passes `EMPTY_VALUE` — and assuming the hash function maps no
other byte sequence to `EMPTY_DIGEST` — the digest of `EMPTY_VALUE` is never a
key of the internal table; `contains` of it is always true, `get` of it
always returns the synthetic `EMPTY_VALUE`, it never appears in `keys()` or
`drain()` output, and `insert`, `emplace`, `remove` and `remove_and_purge`
targeting it are no-ops.  (Without the `emplace` restriction the claim is
false: see the counterexample.) -/
theorem empty_digest_never_stored (hash : Bytes → Digest)
    (hinj : ∀ v : Bytes, v ≠ NULL_RLP → hash v ≠ MemoryDB.SHA3_NULL_RLP hash)
    (prog : List Op) (hgood : MemoryDB.goodProg hash prog = true) :
    MemoryDB.runProg hash prog MemoryDB.new (MemoryDB.SHA3_NULL_RLP hash) = none ∧
    MemoryDB.contains hash (MemoryDB.runProg hash prog MemoryDB.new)
      (MemoryDB.SHA3_NULL_RLP hash) = true ∧
    MemoryDB.get hash (MemoryDB.runProg hash prog MemoryDB.new)
      (MemoryDB.SHA3_NULL_RLP hash) = some NULL_RLP ∧
    MemoryDB.keys (MemoryDB.runProg hash prog MemoryDB.new)
      (MemoryDB.SHA3_NULL_RLP hash) = none ∧
    (MemoryDB.drain (MemoryDB.runProg hash prog MemoryDB.new)).1
      (MemoryDB.SHA3_NULL_RLP hash) = none ∧
    (∀ st : StoreMap, (MemoryDB.insert hash st NULL_RLP).2 = st) ∧
    (∀ st : StoreMap, MemoryDB.emplace st (MemoryDB.SHA3_NULL_RLP hash) NULL_RLP = st) ∧
    (∀ st : StoreMap, MemoryDB.remove hash st (MemoryDB.SHA3_NULL_RLP hash) = st) ∧
    (∀ st : StoreMap,
        (MemoryDB.remove_and_purge hash st (MemoryDB.SHA3_NULL_RLP hash)).2 = st) := by
  have habs := runProg_keeps_empty_absent hash hinj prog MemoryDB.new hgood rfl
  refine ⟨habs, ?_, ?_, ?_, habs, ?_, ?_, ?_, ?_⟩
  · simp [MemoryDB.contains]
  · simp [MemoryDB.get]
  · simp [MemoryDB.keys, habs]
  · intro st
    simp [MemoryDB.insert]
  · intro st
    simp [MemoryDB.emplace]
  · intro st
    simp [MemoryDB.remove]
  · intro st
    simp [MemoryDB.remove_and_purge]

/-- C3 counterexample: `emplace` compares only the value against `NULL_RLP`,
so the public operation `emplace (EMPTY_DIGEST, v)` with `v ≠ EMPTY_VALUE`
physically stores the empty digest in the table: afterwards it is a key of
the internal table and it appears in both `keys()` and `drain()` output. -/
theorem emplace_can_store_empty_digest :
    MemoryDB.runProg encodeB [Op.emplaceOp (MemoryDB.SHA3_NULL_RLP encodeB) [1]]
      MemoryDB.new (MemoryDB.SHA3_NULL_RLP encodeB) = some ([1], 1) ∧
    MemoryDB.keys (MemoryDB.runProg encodeB
        [Op.emplaceOp (MemoryDB.SHA3_NULL_RLP encodeB) [1]] MemoryDB.new)
      (MemoryDB.SHA3_NULL_RLP encodeB) = some 1 ∧
    (MemoryDB.drain (MemoryDB.runProg encodeB
        [Op.emplaceOp (MemoryDB.SHA3_NULL_RLP encodeB) [1]] MemoryDB.new)).1
      (MemoryDB.SHA3_NULL_RLP encodeB) = some ([1], 1) := by
  simp only [MemoryDB.runProg]
  decide

theorem empty_digest_never_stored_witness :
    MemoryDB.runProg encodeB progW MemoryDB.new (MemoryDB.SHA3_NULL_RLP encodeB) = none ∧
    MemoryDB.contains encodeB (MemoryDB.runProg encodeB progW MemoryDB.new)
      (MemoryDB.SHA3_NULL_RLP encodeB) = true ∧
    MemoryDB.get encodeB (MemoryDB.runProg encodeB progW MemoryDB.new)
      (MemoryDB.SHA3_NULL_RLP encodeB) = some NULL_RLP ∧
    MemoryDB.keys (MemoryDB.runProg encodeB progW MemoryDB.new)
      (MemoryDB.SHA3_NULL_RLP encodeB) = none ∧
    (MemoryDB.drain (MemoryDB.runProg encodeB progW MemoryDB.new)).1
      (MemoryDB.SHA3_NULL_RLP encodeB) = none ∧
    (∀ st : StoreMap, (MemoryDB.insert encodeB st NULL_RLP).2 = st) ∧
    (∀ st : StoreMap,
        MemoryDB.emplace st (MemoryDB.SHA3_NULL_RLP encodeB) NULL_RLP = st) ∧
    (∀ st : StoreMap, MemoryDB.remove encodeB st (MemoryDB.SHA3_NULL_RLP encodeB) = st) ∧
    (∀ st : StoreMap,
        (MemoryDB.remove_and_purge encodeB st (MemoryDB.SHA3_NULL_RLP encodeB)).2 = st) :=
  empty_digest_never_stored encodeB
    (fun v hv heq => hv (encodeB_injective heq)) progW
    (by simp only [progW, MemoryDB.goodProg]; decide)
